import Mathlib

/-!
Verification of the BMA Ópticas patient/sales application (`src/app.py`).

The Python source is shallowly embedded: pure string functions become Lean
functions on `List Char` / `String`, the pandas `DataFrame` becomes an explicit
column-major table, the Streamlit/file-system environment becomes an explicit
record of the observations the code makes (file existence, libmagic result,
parse result), and every Python exception path that the source catches is
modelled by an explicit `Option`/branch that returns the value the handler
returns.
-/

namespace BMA

/-! ## Embedding of `validar_rut_completo` (src/app.py lines 25-49) -/

/-- Python `str.upper` restricted to the characters that can reach the
validator: ASCII lowercase letters are uppercased, everything else is kept.
Only the letter `k` matters downstream. -/
def pyUpper (c : Char) : Char := c.toUpper

/-- A character survives `replace(".", "").replace("-", "")`. -/
def notSep (c : Char) : Bool := !(c == '.' || c == '-')

/-- `rut.upper().replace(".", "").replace("-", "")`: uppercase every character
and delete every dot and every dash. -/
def stripRut (s : List Char) : List Char :=
  (s.map pyUpper).filter notSep

/-- The regex `^[0-9]{7,8}[0-9K]$` of line 29, with Python semantics for `$`:
it matches at the end of the string and also just before one final newline.
So the accepted shapes are 7–8 digits, one of `[0-9K]`, and optionally one
trailing `'\n'`. -/
def matchesRutPattern (rut : List Char) : Bool :=
  let t := if rut.getLast? = some '\n' then rut.dropLast else rut
  (t.length == 8 || t.length == 9) &&
    t.dropLast.all Char.isDigit &&
    (match t.getLast? with
     | some c => Char.isDigit c || c == 'K'
     | none => false)

/-- Python `int(c)` on a single character: its digit value, `none` when the
character is not a digit (Python raises `ValueError`, which the validator's
`except` clause turns into `False`). -/
def digitVal? (c : Char) : Option Nat :=
  if c.isDigit then some (c.toNat - 48) else none

/-- The accumulation loop of lines 34-38, running over `reversed(cuerpo)` with
the running multiplier `multiplo` (`multiplo + 1 if multiplo < 7 else 2`).
`none` models the `ValueError` of `int(c)` on a non-digit. -/
def checksumSuma : List Char → Nat → Option Nat
  | [], _ => some 0
  | c :: cs, m =>
    match digitVal? c, checksumSuma cs (if m < 7 then m + 1 else 2) with
    | some d, some rest => some (d * m + rest)
    | _, _ => none

/-- Lines 40-44: `str(11 - (suma % 11))` with the dictionary mapping
`'10' ↦ 'K'` and `'11' ↦ '0'`.  Since `11 - suma % 11` always lies in `1..11`,
the string detour is equivalent to this character computation. -/
def dvEsperado (suma : Nat) : Char :=
  let n := 11 - suma % 11
  if n = 11 then '0' else if n = 10 then 'K' else Char.ofNat (48 + n)

/-- The validator body on the already-stripped character list:
`cuerpo, dv = rut[:-1], rut[-1]`, the checksum loop, and the final comparison
`dv == dv_esperado`.  A `none` from the loop is the caught exception path of
lines 47-49, which returns `False`. -/
def validarCore (rut : List Char) : Bool :=
  if matchesRutPattern rut then
    match rut.getLast? with
    | none => false
    | some dv =>
      match checksumSuma rut.dropLast.reverse 2 with
      | none => false
      | some suma => dv = dvEsperado suma
  else false

/-- `validar_rut_completo` of src/app.py lines 25-49 on a string input. -/
def validar_rut_completo (s : String) : Bool :=
  validarCore (stripRut s.toList)

/-! ## The specification-side checksum

The spec describes the checksum as a walk over the body digits from least
significant to most significant with the repeating weight sequence
`2,3,4,5,6,7,2,3,…`; the weight at position `i` of that walk is `2 + i % 6`. -/

/-- Weighted sum over the reversed digit list, position counter `i` giving
weight `2 + i % 6`. -/
def specSumaFrom : List Nat → Nat → Nat
  | [], _ => 0
  | d :: ds, i => d * (2 + i % 6) + specSumaFrom ds (i + 1)

/-- Spec checksum sum of a digit body given least-significant first. -/
def specSuma (bodyRev : List Nat) : Nat := specSumaFrom bodyRev 0

/-- Digit value of a digit character (unchecked). -/
def digitToVal (c : Char) : Nat := c.toNat - 48

/-- The check character the spec's algorithm assigns to a body of digit
characters (most significant first). -/
def specDV (body : List Char) : Char :=
  dvEsperado (specSuma ((body.map digitToVal).reverse))

/-! ### Helper lemmas about characters -/

lemma pyUpper_of_digit {c : Char} (h : c.isDigit = true) : pyUpper c = c := by
  have hv : c.val.toNat ≤ 57 := by
    simp only [Char.isDigit, Bool.and_eq_true, decide_eq_true_eq] at h
    exact_mod_cast h.2
  unfold pyUpper Char.toUpper
  simp only [Char.toNat]
  rw [if_neg]
  omega

lemma digit_ne_dot {c : Char} (h : c.isDigit = true) : c ≠ '.' := by
  intro h'; subst h'; simp [Char.isDigit] at h

lemma digit_ne_dash {c : Char} (h : c.isDigit = true) : c ≠ '-' := by
  intro h'; subst h'; simp [Char.isDigit] at h

lemma digit_ne_newline {c : Char} (h : c.isDigit = true) : c ≠ '\n' := by
  intro h'; subst h'; simp [Char.isDigit] at h

lemma digitVal?_of_digit {c : Char} (h : c.isDigit = true) :
    digitVal? c = some (digitToVal c) := by
  simp [digitVal?, digitToVal, h, Char.toNat]

/-! ### The checksum loop computes the spec's weighted sum -/

/-- The running multiplier `2,3,4,5,6,7,2,3,…` of the source equals
`2 + i % 6` at the `i`-th step of the walk. -/
lemma checksumSuma_eq_specSumaFrom :
    ∀ (cs : List Char) (j : Nat), cs.all Char.isDigit = true →
      checksumSuma cs (2 + j % 6) = some (specSumaFrom (cs.map digitToVal) j)
  | [], j, _ => by simp [checksumSuma, specSumaFrom]
  | c :: cs, j, h => by
    simp only [List.all_cons, Bool.and_eq_true] at h
    have hnext : (if (2 + j % 6) < 7 then (2 + j % 6) + 1 else 2) = 2 + (j + 1) % 6 := by
      split <;> omega
    simp only [checksumSuma, hnext, digitVal?_of_digit h.1,
      checksumSuma_eq_specSumaFrom cs (j + 1) h.2, List.map_cons, specSumaFrom]

lemma checksumSuma_digits {cs : List Char} (h : cs.all Char.isDigit = true) :
    checksumSuma cs 2 = some (specSuma (cs.map digitToVal)) := by
  have := checksumSuma_eq_specSumaFrom cs 0 h
  simpa [specSuma] using this

/-! ### Shape of the expected check character -/

lemma dvEsperado_mod (s : Nat) : dvEsperado s = dvEsperado (s % 11) := by
  simp [dvEsperado, Nat.mod_mod_of_dvd]

lemma dvEsperado_shape (s : Nat) :
    (dvEsperado s).isDigit = true ∨ dvEsperado s = 'K' := by
  rw [dvEsperado_mod]
  have h : s % 11 < 11 := Nat.mod_lt _ (by omega)
  generalize s % 11 = m at h ⊢
  interval_cases m <;> decide

lemma dvEsperado_ne_newline (s : Nat) : dvEsperado s ≠ '\n' := by
  rcases dvEsperado_shape s with h | h
  · exact digit_ne_newline h
  · rw [h]; decide

/-! ### Characterizing the validator on a decomposed token -/

lemma matchesRutPattern_concat {body : List Char} {dv : Char}
    (hlen : body.length = 7 ∨ body.length = 8)
    (hdig : body.all Char.isDigit = true)
    (hdv : dv.isDigit = true ∨ dv = 'K') :
    matchesRutPattern (body ++ [dv]) = true := by
  have hne : dv ≠ '\n' := by
    rcases hdv with h | h
    · exact digit_ne_newline h
    · rw [h]; decide
  unfold matchesRutPattern
  rw [List.getLast?_concat]
  simp only [Option.some.injEq, if_neg hne, List.dropLast_concat,
    List.length_append, List.length_singleton]
  rcases hdv with h | h <;> simp_all [List.getLast?_concat]

lemma validarCore_concat {body : List Char} {dv : Char}
    (hlen : body.length = 7 ∨ body.length = 8)
    (hdig : body.all Char.isDigit = true)
    (hdv : dv.isDigit = true ∨ dv = 'K') :
    (validarCore (body ++ [dv]) = true ↔ dv = specDV body) := by
  have hrevdig : body.reverse.all Char.isDigit = true := by
    simpa [List.all_reverse] using hdig
  unfold validarCore
  rw [if_pos (matchesRutPattern_concat hlen hdig hdv),
    List.getLast?_concat, List.dropLast_concat,
    checksumSuma_digits hrevdig]
  simp [specDV, specSuma, List.map_reverse]

/-- Full characterization of acceptance: the stripped input must be a 7–8
digit body followed by exactly the check character the weighted modulo-11
algorithm assigns to that body (and nothing else, in particular no trailing
newline sneaking through the regex). -/
lemma validarCore_true_iff (rut : List Char) :
    validarCore rut = true ↔
      ∃ body : List Char, (body.length = 7 ∨ body.length = 8) ∧
        body.all Char.isDigit = true ∧ rut = body ++ [specDV body] := by
  constructor
  · intro h
    unfold validarCore at h
    by_cases hm : matchesRutPattern rut = true
    · rw [if_pos hm] at h
      cases hlast : rut.getLast? with
      | none => rw [hlast] at h; exact absurd h (by simp)
      | some dv =>
        rw [hlast] at h
        cases hsum : checksumSuma rut.dropLast.reverse 2 with
        | none => rw [hsum] at h; exact absurd h (by simp)
        | some suma =>
          rw [hsum] at h
          have hdv : dv = dvEsperado suma := by simpa using h
          -- the trailing-newline branch of the regex cannot have fired:
          -- the expected check character is never a newline
          have hnl : dv ≠ '\n' := by
            rw [hdv]; exact dvEsperado_ne_newline suma
          have hsplit : rut.dropLast ++ [dv] = rut :=
            List.dropLast_append_getLast? dv hlast
          unfold matchesRutPattern at hm
          rw [hlast] at hm
          rw [if_neg (by simpa using hnl)] at hm
          simp only [Bool.and_eq_true, Bool.or_eq_true, beq_iff_eq,
            decide_eq_true_eq] at hm
          obtain ⟨⟨hml, hmdig⟩, _⟩ := hm
          refine ⟨rut.dropLast, ?_, hmdig, ?_⟩
          · have : rut.length = rut.dropLast.length + 1 := by
              conv_lhs => rw [← hsplit]
              simp
            omega
          · have hsum2 := checksumSuma_digits
              (show rut.dropLast.reverse.all Char.isDigit = true by
                simpa [List.all_reverse] using hmdig)
            rw [hsum2] at hsum
            have : suma = specSuma (rut.dropLast.reverse.map digitToVal) :=
              (Option.some.injEq _ _ ▸ hsum).symm
            rw [← hsplit, hdv, this]
            simp [specDV, specSuma, List.map_reverse]
    · rw [if_neg hm] at h; exact absurd h (by simp)
  · rintro ⟨body, hlen, hdig, rfl⟩
    exact (validarCore_concat hlen hdig (dvEsperado_shape _)).mpr rfl

/-- **C1**: for every ID string whose stripped form is 7–8 digits followed by
a check character, `validar_rut_completo` accepts exactly when the check
character equals the weighted modulo-11 checksum over the body digits taken
least significant first with repeating weights 2,3,4,5,6,7 (result 11 mapped
to `'0'`, 10 mapped to `'K'`); in particular the body `"12345678"` yields
check digit `'5'` and `"12.345.678-5"` is accepted. -/
theorem C1_checksum_validation :
    (∀ (s : String) (body : List Char) (dv : Char),
      stripRut s.toList = body ++ [dv] →
      (body.length = 7 ∨ body.length = 8) →
      body.all Char.isDigit = true →
      (dv.isDigit = true ∨ dv = 'K') →
      (validar_rut_completo s = true ↔ dv = specDV body)) ∧
    specDV "12345678".toList = '5' ∧
    validar_rut_completo "12.345.678-5" = true := by
  refine ⟨?_, by decide, by decide⟩
  intro s body dv hstrip hlen hdig hdv
  unfold validar_rut_completo
  rw [hstrip]
  exact validarCore_concat hlen hdig hdv

theorem C1_checksum_validation_witness :
    validar_rut_completo "12.345.678-5" = true :=
  (C1_checksum_validation.1 "12.345.678-5" "12345678".toList '5'
    (by decide) (by decide) (by decide) (by decide)).mpr (by decide)

/-- **C2**: the validator is total (each Python exception path is modelled
and returns `false`), and it accepts a string precisely when its stripped
form is a 7–8 digit body followed by exactly the checksum character of that
body; every other string — wrong shape or wrong check character — is
rejected with a plain `false`, never a corrected or best-effort ID. -/
theorem C2_validator_rejects_all_nonmatching :
    ∀ s : String, validar_rut_completo s = true ↔
      ∃ body : List Char, (body.length = 7 ∨ body.length = 8) ∧
        body.all Char.isDigit = true ∧
        stripRut s.toList = body ++ [specDV body] :=
  fun s => validarCore_true_iff (stripRut s.toList)

/-! ## Canonical grouped form (`normalize_and_validate`)

The repository only ships the boolean validator; the spec's
`normalize_and_validate` additionally produces the canonical grouped textual
form on success. -/

/-- Insert a `'.'` after every third character of a reversed body;
`k` counts the position inside the current group of three. -/
def groupRev : List Char → Nat → List Char
  | [], _ => []
  | c :: cs, k =>
    if k = 2 then
      c :: (if cs.isEmpty then [] else '.' :: groupRev cs 0)
    else
      c :: groupRev cs (k + 1)

/-- Modelled from the spec: `normalize_and_validate` (spec §4.1) — the
canonical-form-producing half is missing from `src/app.py`, which only has
the boolean `validar_rut_completo`.  Per the spec: strip delimiters,
uppercase, validate shape and checksum exactly as the source validator does,
and on success produce the canonical grouped form (body grouped in thousands
with `'.'`, then `'-'`, then the check character). -/
def normalize_and_validate (s : String) : Option String :=
  let rut := stripRut s.toList
  if validarCore rut then
    match rut.getLast? with
    | some dv => some ⟨(groupRev rut.dropLast.reverse 0).reverse ++ '-' :: [dv]⟩
    | none => none
  else none

lemma notSep_of_digit {c : Char} (h : c.isDigit = true) : notSep c = true := by
  simp [notSep, digit_ne_dot h, digit_ne_dash h]

lemma strip_groupRev :
    ∀ (cs : List Char) (k : Nat), cs.all Char.isDigit = true →
      ((groupRev cs k).map pyUpper).filter notSep = cs
  | [], _, _ => by simp [groupRev]
  | c :: cs, k, h => by
    simp only [List.all_cons, Bool.and_eq_true] at h
    by_cases hk : k = 2
    · by_cases hcs : cs.isEmpty
      · have : cs = [] := by simpa [List.isEmpty_iff] using hcs
        subst this
        simp [groupRev, hk, pyUpper_of_digit h.1, notSep_of_digit h.1]
      · have hdot : pyUpper '.' = '.' := by decide
        have hdotSep : notSep '.' = false := by decide
        simp [groupRev, hk, hcs, pyUpper_of_digit h.1, notSep_of_digit h.1,
          hdot, hdotSep, strip_groupRev cs 0 h.2]
    · simp [groupRev, hk, pyUpper_of_digit h.1, notSep_of_digit h.1,
        strip_groupRev cs (k + 1) h.2]

/-- Stripping the canonical grouped form of a digit body recovers exactly
`body ++ [dv]`, for a check character that is a digit or `'K'`. -/
lemma stripRut_canonical {body : List Char} {dv : Char}
    (hdig : body.all Char.isDigit = true)
    (hdv : dv.isDigit = true ∨ dv = 'K') :
    stripRut ((groupRev body.reverse 0).reverse ++ '-' :: [dv]) =
      body ++ [dv] := by
  have hrevdig : body.reverse.all Char.isDigit = true := by
    simpa [List.all_reverse] using hdig
  have hdvUpper : pyUpper dv = dv := by
    rcases hdv with h | h
    · exact pyUpper_of_digit h
    · rw [h]; decide
  have hdvKeep : notSep dv = true := by
    rcases hdv with h | h
    · exact notSep_of_digit h
    · rw [h]; decide
  have hdash : pyUpper '-' = '-' := by decide
  have hdashSep : notSep '-' = false := by decide
  unfold stripRut
  rw [List.map_append, List.filter_append]
  congr 1
  · rw [List.map_reverse, List.filter_reverse,
      strip_groupRev body.reverse 0 hrevdig]
    exact List.reverse_reverse body
  · simp [hdash, hdashSep, hdvUpper, hdvKeep]

/-- **C9**: `normalize_and_validate` (modelled from the spec on top of the
source validator) is idempotent on its successes: whenever it produces a
canonical grouped form, running it again on that output succeeds and returns
the very same canonical form. -/
theorem C9_normalize_idempotent :
    ∀ s c : String, normalize_and_validate s = some c →
      normalize_and_validate c = some c := by
  intro s c h
  unfold normalize_and_validate at h
  set rut := stripRut s.toList with hrutdef
  by_cases hv : validarCore rut = true
  · rw [if_pos hv] at h
    obtain ⟨body, hlen, hdig, hrut⟩ := (validarCore_true_iff rut).mp hv
    have hshape := dvEsperado_shape (specSuma ((body.map digitToVal).reverse))
    have hshape' : (specDV body).isDigit = true ∨ specDV body = 'K' := hshape
    rw [hrut, List.getLast?_concat, List.dropLast_concat] at h
    have hc : c = ⟨(groupRev body.reverse 0).reverse ++ '-' :: [specDV body]⟩ := by
      simpa using h.symm
    have hstripc : stripRut c.toList = body ++ [specDV body] := by
      rw [hc]
      exact stripRut_canonical hdig hshape'
    unfold normalize_and_validate
    rw [hstripc, if_pos ((validarCore_true_iff _).mpr ⟨body, hlen, hdig, rfl⟩),
      List.getLast?_concat, List.dropLast_concat, hc]
  · rw [if_neg hv] at h
    exact absurd h (by simp)

theorem C9_normalize_idempotent_witness :
    normalize_and_validate "12.345.678-5" = some "12.345.678-5" :=
  C9_normalize_idempotent "12.345.678-5" "12.345.678-5" (by decide)

/-! ## Embedding of `enmascarar_rut` (src/app.py lines 51-64) -/

/-- A Python value reaching `enmascarar_rut`: either a `str`, or any
non-string value (the code only observes `isinstance(rut, str)`). -/
inductive PyObj where
  | pstr (s : String)
  | nonStr

/-- Python `rut.split("-")`: split on every dash, keeping empty parts;
the empty string yields `[""]`. -/
def splitOnDash : List Char → List (List Char)
  | [] => [[]]
  | c :: cs =>
    if c = '-' then [] :: splitOnDash cs
    else
      match splitOnDash cs with
      | [] => [[c]]
      | p :: ps => (c :: p) :: ps

/-- The `"****"` replacement of line 62. -/
def asterisks : List Char := ['*', '*', '*', '*']

/-- Body of `enmascarar_rut` on the character list of a string input:
`partes = rut.split("-")`; if there are not exactly two parts return the
input unchanged, otherwise mask the last four characters of the body when it
is longer than four characters (`cuerpo[:-4] + "****"`) and reattach the part
after the dash. -/
def enmascararCore (rut : List Char) : List Char :=
  match splitOnDash rut with
  | [cuerpo, resto] =>
    (if cuerpo.length > 4 then cuerpo.take (cuerpo.length - 4) ++ asterisks
     else cuerpo) ++ '-' :: resto
  | _ => rut

/-- `enmascarar_rut` of src/app.py lines 51-64: a non-string input yields
`""`, a string input is processed by `enmascararCore`. -/
def enmascarar_rut : PyObj → String
  | .nonStr => ""
  | .pstr s => ⟨enmascararCore s.toList⟩

lemma splitOnDash_ne_nil : ∀ l : List Char, splitOnDash l ≠ []
  | [] => by simp [splitOnDash]
  | c :: cs => by
    unfold splitOnDash
    by_cases h : c = '-'
    · simp [h]
    · simp only [if_neg h]
      cases hs : splitOnDash cs <;> simp

lemma splitOnDash_length :
    ∀ l : List Char, (splitOnDash l).length = l.count '-' + 1
  | [] => by simp [splitOnDash]
  | c :: cs => by
    unfold splitOnDash
    by_cases h : c = '-'
    · simp [h, splitOnDash_length cs, List.count_cons]
    · cases hs : splitOnDash cs with
      | nil => exact absurd hs (splitOnDash_ne_nil cs)
      | cons p ps =>
        have := splitOnDash_length cs
        rw [hs] at this
        simp only [if_neg h, hs, List.length_cons] at this ⊢
        simp [List.count_cons, this, Ne.symm h]

lemma splitOnDash_singleton :
    ∀ {l b : List Char}, splitOnDash l = [b] → l = b ∧ '-' ∉ b := by
  intro l
  induction l with
  | nil =>
    intro b h
    simp only [splitOnDash, List.cons.injEq] at h
    simp [← h.1]
  | cons c cs ih =>
    intro b h
    unfold splitOnDash at h
    by_cases hc : c = '-'
    · rw [if_pos hc] at h
      simp only [List.cons.injEq] at h
      exact absurd h.2 (splitOnDash_ne_nil cs)
    · rw [if_neg hc] at h
      cases hs : splitOnDash cs with
      | nil => exact absurd hs (splitOnDash_ne_nil cs)
      | cons p ps =>
        rw [hs] at h
        simp only [List.cons.injEq] at h
        obtain ⟨hb, hps⟩ := h
        subst hps
        obtain ⟨hcs, hmem⟩ := ih hs
        subst hcs
        subst hb
        refine ⟨rfl, fun hm => ?_⟩
        rcases List.mem_cons.mp hm with h | h
        · exact hc h.symm
        · exact hmem h

lemma splitOnDash_pair :
    ∀ {l a b : List Char}, splitOnDash l = [a, b] →
      l = a ++ '-' :: b ∧ '-' ∉ a ∧ '-' ∉ b := by
  intro l
  induction l with
  | nil => intro a b h; simp [splitOnDash] at h
  | cons c cs ih =>
    intro a b h
    unfold splitOnDash at h
    by_cases hc : c = '-'
    · rw [if_pos hc] at h
      simp only [List.cons.injEq] at h
      obtain ⟨ha, hb⟩ := h
      obtain ⟨hcs, hmem⟩ := splitOnDash_singleton hb
      subst hcs
      subst hc
      exact ⟨by simp [← ha], by simp [← ha], hmem⟩
    · rw [if_neg hc] at h
      cases hs : splitOnDash cs with
      | nil => exact absurd hs (splitOnDash_ne_nil cs)
      | cons p ps =>
        rw [hs] at h
        simp only [List.cons.injEq] at h
        obtain ⟨ha, hps⟩ := h
        subst hps
        obtain ⟨hcs, hpmem, hbmem⟩ := ih hs
        subst hcs
        subst ha
        refine ⟨by simp, fun hm => ?_, hbmem⟩
        rcases List.mem_cons.mp hm with h | h
        · exact hc h.symm
        · exact hpmem h

lemma splitOnDash_no_dash :
    ∀ {b : List Char}, '-' ∉ b → splitOnDash b = [b] := by
  intro b
  induction b with
  | nil => intro _; simp [splitOnDash]
  | cons c cs ih =>
    intro h
    simp only [List.mem_cons, not_or] at h
    unfold splitOnDash
    rw [if_neg (Ne.symm h.1), ih h.2]

lemma splitOnDash_construct {a b : List Char}
    (ha : '-' ∉ a) (hb : '-' ∉ b) :
    splitOnDash (a ++ '-' :: b) = [a, b] := by
  induction a with
  | nil => simp [splitOnDash, splitOnDash_no_dash hb]
  | cons c cs ih =>
    simp only [List.mem_cons, not_or] at ha
    simp only [List.cons_append]
    unfold splitOnDash
    rw [if_neg (Ne.symm ha.1), ih ha.2]

lemma toList_mk (l : List Char) : (⟨l⟩ : String).toList = l := rfl

lemma mk_toList (s : String) : (⟨s.toList⟩ : String) = s := rfl

/-- On a split that is not exactly two parts, `enmascarar_rut` returns its
input unchanged (line 57-58 of the source). -/
lemma enmascararCore_not_pair {l : List Char}
    (h : (splitOnDash l).length ≠ 2) : enmascararCore l = l := by
  unfold enmascararCore
  cases hs : splitOnDash l with
  | nil => rfl
  | cons p ps =>
    cases ps with
    | nil => rfl
    | cons q qs =>
      cases qs with
      | nil => rw [hs] at h; simp at h
      | cons r rs => rfl

lemma enmascararCore_pair_le {l a b : List Char}
    (hs : splitOnDash l = [a, b]) (hlen : a.length ≤ 4) :
    enmascararCore l = l := by
  obtain ⟨hl, -, -⟩ := splitOnDash_pair hs
  simp only [enmascararCore, hs]
  rw [if_neg (by omega)]
  exact hl.symm

lemma enmascararCore_pair_gt {l a b : List Char}
    (hs : splitOnDash l = [a, b]) (hlen : a.length > 4) :
    enmascararCore l = (a.take (a.length - 4) ++ asterisks) ++ '-' :: b := by
  simp only [enmascararCore, hs]
  rw [if_pos hlen]

lemma enmascararCore_idem (l : List Char) :
    enmascararCore (enmascararCore l) = enmascararCore l := by
  by_cases h2 : (splitOnDash l).length = 2
  case neg =>
    rw [enmascararCore_not_pair h2, enmascararCore_not_pair h2]
  case pos =>
    obtain ⟨p, q, hs⟩ : ∃ p q, splitOnDash l = [p, q] := by
      cases hsp : splitOnDash l with
      | nil => rw [hsp] at h2; simp at h2
      | cons p ps =>
        cases ps with
        | nil => rw [hsp] at h2; simp at h2
        | cons q qs =>
          cases qs with
          | nil => exact ⟨p, q, rfl⟩
          | cons r rs => rw [hsp] at h2; simp at h2
    obtain ⟨hl, hpmem, hqmem⟩ := splitOnDash_pair hs
    by_cases hlen : p.length > 4
    · have hcore := enmascararCore_pair_gt hs hlen
      set p' := p.take (p.length - 4) ++ asterisks with hp'
      have hp'mem : '-' ∉ p' := by
        rw [hp']
        intro hmem
        rcases List.mem_append.mp hmem with h | h
        · exact hpmem (List.mem_of_mem_take h)
        · simp [asterisks] at h
      have hp'len : p'.length = p.length := by
        rw [hp']
        simp only [List.length_append, List.length_take]
        simp [asterisks]
        omega
      have hsplit2 : splitOnDash (enmascararCore l) = [p', q] := by
        rw [hcore]
        exact splitOnDash_construct hp'mem hqmem
      have htlen : (p.take (p.length - 4)).length = p.length - 4 := by
        simp [List.length_take]
      have htake : p'.take (p'.length - 4) = p.take (p.length - 4) := by
        rw [hp'len, hp']
        exact List.take_left' htlen
      rw [enmascararCore_pair_gt hsplit2 (by rw [hp'len]; exact hlen),
        htake, hcore]
    · rw [enmascararCore_pair_le hs (by omega), enmascararCore_pair_le hs (by omega)]

/-- **C10**: the display-masking function `enmascarar_rut` is idempotent and
total on its edge cases: applying it twice equals applying it once; a
non-string input yields `""`; a string whose dash count is not exactly one,
or whose body part has at most four characters, is returned unchanged; and
when masking occurs the part after the dash is reattached verbatim. -/
theorem C10_enmascarar_properties :
    (∀ x : PyObj, enmascarar_rut (.pstr (enmascarar_rut x)) = enmascarar_rut x) ∧
    enmascarar_rut .nonStr = "" ∧
    (∀ s : String, s.toList.count '-' ≠ 1 → enmascarar_rut (.pstr s) = s) ∧
    (∀ (s : String) (a b : List Char), splitOnDash s.toList = [a, b] →
      a.length ≤ 4 → enmascarar_rut (.pstr s) = s) ∧
    (∀ (s : String) (a b : List Char), splitOnDash s.toList = [a, b] →
      a.length > 4 →
      (enmascarar_rut (.pstr s)).toList =
        (a.take (a.length - 4) ++ asterisks) ++ '-' :: b) := by
  refine ⟨?_, rfl, ?_, ?_, ?_⟩
  · intro x
    cases x with
    | nonStr => decide
    | pstr s =>
      calc enmascarar_rut (.pstr (enmascarar_rut (.pstr s)))
          = ⟨enmascararCore (enmascararCore s.toList)⟩ := rfl
        _ = ⟨enmascararCore s.toList⟩ := by rw [enmascararCore_idem]
        _ = enmascarar_rut (.pstr s) := rfl
  · intro s h
    have hcore : enmascararCore s.toList = s.toList :=
      enmascararCore_not_pair (by rw [splitOnDash_length]; omega)
    calc enmascarar_rut (.pstr s) = ⟨enmascararCore s.toList⟩ := rfl
      _ = ⟨s.toList⟩ := by rw [hcore]
      _ = s := mk_toList s
  · intro s a b hs hlen
    have hcore : enmascararCore s.toList = s.toList :=
      enmascararCore_pair_le hs hlen
    calc enmascarar_rut (.pstr s) = ⟨enmascararCore s.toList⟩ := rfl
      _ = ⟨s.toList⟩ := by rw [hcore]
      _ = s := mk_toList s
  · intro s a b hs hlen
    calc (enmascarar_rut (.pstr s)).toList = enmascararCore s.toList := rfl
      _ = (a.take (a.length - 4) ++ asterisks) ++ '-' :: b :=
        enmascararCore_pair_gt hs hlen

theorem C10_enmascarar_properties_witness :
    (enmascarar_rut (.pstr "12.345.678-5")).toList =
      ("12.345.678".toList.take ("12.345.678".toList.length - 4) ++ asterisks)
        ++ '-' :: ['5'] :=
  C10_enmascarar_properties.2.2.2.2 "12.345.678-5" "12.345.678".toList ['5']
    (by decide) (by decide)

/-! ## Embedding of the data-loading pipeline (src/app.py lines 66-120)

A pandas `DataFrame` is modelled column-major: a row count plus a list of
named columns.  A cell is one of the value kinds the pipeline distinguishes:
a number, a string, a datetime (with a timezone-awareness flag), a boolean,
or NaN/NaT.  The Streamlit/file-system environment of `cargar_datos` is an
explicit record of the three observations the code makes: whether
`Pacientes.xlsx` exists, what content type `magic.from_file` reports (`none`
modelling an exception inside `magic`), and what `pd.read_excel` returns
(`none` modelling a parse exception, caught by the outer handler).  The
`st.error`/`st.warning` calls are collected as a list of message strings. -/

inductive Cell where
  | cnum (v : Int)
  | cstr (s : String)
  | cdate (t : Int) (aware : Bool)
  | cbool (b : Bool)
  | cnan
  deriving DecidableEq, Repr

structure DataFrame where
  nrows : Nat
  cols : List (String × List Cell)
  deriving DecidableEq, Repr

/-- `pd.DataFrame()` — the empty ledger. -/
def emptyDF : DataFrame := ⟨0, []⟩

def DataFrame.hasCol (df : DataFrame) (n : String) : Bool :=
  df.cols.any (fun p => p.1 == n)

/-- First column with a given label (pandas label lookup). -/
def lookupCol : List (String × List Cell) → String → Option (List Cell)
  | [], _ => none
  | p :: ps, n => if p.1 == n then some p.2 else lookupCol ps n

def DataFrame.getCol? (df : DataFrame) (n : String) : Option (List Cell) :=
  lookupCol df.cols n

/-- `df[n] = vals`: replace the column in place when the label exists,
otherwise append it at the end (pandas column-assignment semantics). -/
def DataFrame.setCol (df : DataFrame) (n : String) (vals : List Cell) : DataFrame :=
  if df.hasCol n then
    ⟨df.nrows, df.cols.map (fun p => if p.1 == n then (p.1, vals) else p)⟩
  else
    ⟨df.nrows, df.cols ++ [(n, vals)]⟩

/-- `df[n] = df[n].apply(f)`: transform the cells of every column labelled
`n`; a no-op when the label is absent. -/
def DataFrame.mapCol (df : DataFrame) (n : String) (f : Cell → Cell) : DataFrame :=
  ⟨df.nrows, df.cols.map (fun p => if p.1 == n then (p.1, p.2.map f) else p)⟩

/-- Python `.strip()` on a character list: drop leading and trailing
whitespace. -/
def pyStrip (l : List Char) : List Char :=
  ((l.dropWhile Char.isWhitespace).reverse.dropWhile Char.isWhitespace).reverse

/-- `df.columns = df.columns.str.strip()` (line 91). -/
def stripColNames (df : DataFrame) : DataFrame :=
  ⟨df.nrows, df.cols.map (fun p => (⟨pyStrip p.1.toList⟩, p.2))⟩

/-- The canonical optical-prescription column list (line 21). -/
def COLUMNAS_OPTICAS : List String :=
  ["OD_SPH", "OD_CYL", "OD_EJE", "OI_SPH", "OI_CYL", "OI_EJE",
   "DP_Lejos", "DP_CERCA", "ADD"]

/-- The accepted spreadsheet MIME signature set (line 22). -/
def MIME_VALIDOS : List String :=
  ["application/vnd.ms-excel",
   "application/vnd.openxmlformats-officedocument.spreadsheetml.sheet"]

/-- `es_excel_valido` (lines 66-73) as a function of the `magic.from_file`
observation; `none` models an exception inside `magic`, which the handler
turns into `False`. -/
def es_excel_valido (mime : Option String) : Bool :=
  match mime with
  | some m => MIME_VALIDOS.contains m
  | none => false

/-- `pd.to_numeric(·, errors="coerce")` on one cell.  The numeric grammar the
library accepts on strings is modelled by an integer parse of the trimmed
string; the claims depend only on the parse being success-or-NaN, never an
error. -/
def toNumericCoerce (c : Cell) : Cell :=
  match c with
  | .cnum v => .cnum v
  | .cbool b => .cnum (if b then 1 else 0)
  | .cstr s => match (⟨pyStrip s.toList⟩ : String).toInt? with
               | some v => .cnum v
               | none => .cnan
  | .cdate _ _ => .cnan
  | .cnan => .cnan

/-- `.fillna(0)` on one cell. -/
def fillnaZero (c : Cell) : Cell :=
  match c with
  | .cnan => .cnum 0
  | c => c

/-- Consume a leading ISO `YYYY-MM-DD` date and return the remainder. -/
def isoDatePrefix : List Char → Option (List Char)
  | y1 :: y2 :: y3 :: y4 :: '-' :: m1 :: m2 :: '-' :: d1 :: d2 :: rest =>
    if [y1, y2, y3, y4, m1, m2, d1, d2].all Char.isDigit then some rest else none
  | _ => none

/-- Consume a `T`/space-separated `HH:MM[:SS]` time and return the
remainder. -/
def isoTimePart : List Char → Option (List Char)
  | t :: h1 :: h2 :: ':' :: n1 :: n2 :: rest =>
    if (t = 'T' ∨ t = ' ') ∧ [h1, h2, n1, n2].all Char.isDigit then
      match rest with
      | ':' :: s1 :: s2 :: rest2 =>
        if [s1, s2].all Char.isDigit then some rest2 else some rest
      | _ => some rest
    else none
  | _ => none

/-- Recognize a trailing UTC-offset designator: nothing (naive), `Z`, or
`±HH:MM` (timezone-aware); anything else fails the parse. -/
def isoOffsetPart : List Char → Option Bool
  | [] => some false
  | ['Z'] => some true
  | [sgn, h1, h2, ':', m1, m2] =>
    if (sgn = '+' ∨ sgn = '-') ∧ [h1, h2, m1, m2].all Char.isDigit then some true
    else none
  | _ => none

/-- The string half of `pd.to_datetime(·, errors="coerce")`: the library's
full date grammar is a library detail, modelled here by the ISO-8601 core
it certainly accepts — `YYYY-MM-DD`, optionally a time, optionally an
explicit offset (`Z` or `±HH:MM`).  What the claims depend on is the
library's three observable outcomes, all represented: an offset-bearing
string parses to a timezone-AWARE value (the input class that later makes
`.dt.tz_localize` raise), an offset-free one to a naive value, and anything
else coerces to NaT; the numeric tick of a parsed date is irrelevant to
every claim and abstracted to 0. -/
def strDateParse (s : String) : Cell :=
  match isoDatePrefix (pyStrip s.toList) with
  | none => .cnan
  | some rest =>
    match rest with
    | [] => .cdate 0 false
    | _ :: _ =>
      match isoTimePart rest with
      | none => .cnan
      | some rest2 =>
        match isoOffsetPart rest2 with
        | none => .cnan
        | some aware => .cdate 0 aware

/-- `pd.to_datetime(·, errors="coerce")` on one cell. -/
def toDatetimeCoerce (c : Cell) : Cell :=
  match c with
  | .cdate t a => .cdate t a
  | .cnum v => .cdate v false
  | .cstr s => strDateParse s
  | .cbool _ => .cnan
  | .cnan => .cnan

/-- Is this cell a timezone-aware datetime? -/
def isAware : Cell → Bool
  | .cdate _ true => true
  | _ => false

/-- The per-cell effect of `.dt.tz_localize(timezone.utc)` on the naive
column it succeeds on.  On a column that is already timezone-aware the call
raises `TypeError` instead; that branch lives in `dateStep?`, so the aware
case here is unreachable and left untouched. -/
def tzLocalizeUTC (c : Cell) : Cell :=
  match c with
  | .cdate t false => .cdate t true
  | c => c

/-- `.fillna('')` on one cell. -/
def fillnaEmpty (c : Cell) : Cell :=
  match c with
  | .cnan => .cstr ""
  | c => c

/-- Python `str(x)` on one cell (representations chosen to mirror Python;
only stringness matters to the claims). -/
def pyStr (c : Cell) : String :=
  match c with
  | .cstr s => s
  | .cnum v => toString v
  | .cbool b => if b then "True" else "False"
  | .cdate t _ => toString t
  | .cnan => "nan"

/-- `df["Rut"].apply(validar_rut_completo)` on one cell: on a non-string
value, `.upper()` raises inside the validator's `try` and the handler
returns `False`. -/
def cellValidarRut (c : Cell) : Cell :=
  match c with
  | .cstr s => .cbool (validar_rut_completo s)
  | _ => .cbool false

/-- How many columns carry a given label.  Several source lines misbehave
when a label they address is duplicated, so the model must distinguish
"present once" from "present several times". -/
def countCol (df : DataFrame) (n : String) : Nat :=
  df.cols.countP (fun p => p.1 == n)

/-- The successful effect of lines 94-95: add the `Rut_Válido` column when
`Rut` is present. -/
def rutValidationDF (df : DataFrame) : DataFrame :=
  if df.hasCol "Rut" then
    df.setCol "Rut_Válido" (((df.getCol? "Rut").getD []).map cellValidarRut)
  else df

/-- Lines 94-99 as a fallible step.  With a duplicated `Rut` label,
`df['Rut'].apply` yields a column-label-indexed result whose assignment
raises (duplicate-axis reindex); with a duplicated pre-existing `Rut_Válido`
label, the `.all()` truth test of line 96 is ambiguous and raises.  `none`
is the raise, caught by the outer handler. -/
def rutStep? (df : DataFrame) : Option DataFrame :=
  if df.hasCol "Rut" then
    if countCol df "Rut" ≠ 1 ∨ 2 ≤ countCol df "Rut_Válido" then none
    else some (rutValidationDF df)
  else some df

/-- Lines 96-99: the warning emitted when some RUT fails validation. -/
def rutValidationMsgs (df : DataFrame) : List String :=
  if df.hasCol "Rut" then
    let flags := ((df.getCol? "Rut").getD []).map cellValidarRut
    if flags.all (fun c => c == Cell.cbool true) then []
    else ["⚠️ " ++ toString (flags.filter (fun c => c == Cell.cbool false)).length
            ++ " RUTs no válidos detectados"]
  else []

/-- Line 103: the coerced visit-date column. -/
def dateConverted (df : DataFrame) : DataFrame :=
  df.mapCol "Última_visita" toDatetimeCoerce

/-- Line 104 on the naive column it succeeds on. -/
def dateLocalized (df : DataFrame) : DataFrame :=
  (dateConverted df).mapCol "Última_visita" tzLocalizeUTC

/-- The successful effect of lines 102-104. -/
def dateStepOk (df : DataFrame) : DataFrame :=
  if df.hasCol "Última_visita" then dateLocalized df else df

/-- Lines 102-104 as a fallible step.  A duplicated `Última_visita` label
hands `pd.to_datetime` a two-dimensional object, which raises.  And when the
coerced column contains any timezone-aware value — e.g. an offset-bearing
timestamp string in the store — line 104's `.dt.tz_localize(timezone.utc)`
raises `TypeError` (already tz-aware; with mixed offsets the failure moves
into line 103/the `.dt` accessor, same outcome).  `none` is the raise,
caught by the outer handler. -/
def dateStep? (df : DataFrame) : Option DataFrame :=
  if df.hasCol "Última_visita" then
    if countCol df "Última_visita" ≠ 1 then none
    else if (((dateConverted df).getCol? "Última_visita").getD []).any isAware then none
    else some (dateLocalized df)
  else some df

/-- The successful effect of lines 106-107: best-effort numeric coercion of
the price column with failures mapped to zero. -/
def valorStep (df : DataFrame) : DataFrame :=
  if df.hasCol "Valor" then
    df.mapCol "Valor" (fun c => fillnaZero (toNumericCoerce c))
  else df

/-- Lines 106-107 as a fallible step: a duplicated `Valor` label hands
`pd.to_numeric` a two-dimensional object, which raises. -/
def valorStep? (df : DataFrame) : Option DataFrame :=
  if df.hasCol "Valor" then
    if countCol df "Valor" ≠ 1 then none
    else some (valorStep df)
  else some df

/-- The successful effect of one iteration of the loop over
`COLUMNAS_OPTICAS` (lines 110-112). -/
def opticalColStep (df : DataFrame) (col : String) : DataFrame :=
  if df.hasCol col then
    df.mapCol col (fun c => .cstr ⟨pyStrip (pyStr (fillnaEmpty c)).toList⟩)
  else df

/-- One loop iteration as a fallible step: with a duplicated optical label
the element-wise `apply` runs column-wise instead and the assignment raises
(duplicate-axis reindex). -/
def opticalColStep? (df : DataFrame) (col : String) : Option DataFrame :=
  if df.hasCol col then
    if countCol df col ≠ 1 then none else some (opticalColStep df col)
  else some df

/-- Lines 110-112: the whole optical-column cleanup loop, stopping at the
first raising iteration. -/
def opticalFold? : List String → DataFrame → Option DataFrame
  | [], df => some df
  | c :: cs, df =>
    match opticalColStep? df c with
    | none => none
    | some d => opticalFold? cs d

/-- The success composition of the loop. -/
def opticalStep (df : DataFrame) : DataFrame :=
  COLUMNAS_OPTICAS.foldl opticalColStep df

/-- The body of `cargar_datos` on a successfully parsed table
(lines 90-115): `none` in the first component is an exception escaping to
the outer handler; the second component collects the `st.warning` messages
already shown before the failure point (the RUT warning of lines 96-99 is
emitted before the later steps run). -/
def transformLoaded? (df : DataFrame) : Option DataFrame × List String :=
  match rutStep? (stripColNames df) with
  | none => (none, [])
  | some df2 =>
    let warns := rutValidationMsgs (stripColNames df)
    match dateStep? df2 with
    | none => (none, warns)
    | some df3 =>
      match valorStep? df3 with
      | none => (none, warns)
      | some df4 =>
        match opticalFold? COLUMNAS_OPTICAS df4 with
        | none => (none, warns)
        | some df5 => (some df5, warns)

/-- The observations `cargar_datos` makes of its environment. -/
structure LoadEnv where
  fileExists : Bool
  mime : Option String
  parsed : Option DataFrame

/-- `cargar_datos` (lines 77-120).  Every `except` path of the source
returns an empty table plus an error message; none of them re-raises, so the
embedding is a total function. -/
def cargar_datos (e : LoadEnv) : DataFrame × List String :=
  if !e.fileExists then
    (emptyDF, ["❌ Archivo Pacientes.xlsx no encontrado"])
  else if !es_excel_valido e.mime then
    (emptyDF, ["❌ El archivo no es un Excel válido"])
  else
    match e.parsed with
    | none => (emptyDF, ["❌ Error crítico al cargar datos"])
    | some df =>
      match transformLoaded? df with
      | (none, ws) => (emptyDF, ws ++ ["❌ Error crítico al cargar datos"])
      | (some d, ws) => (d, ws)

/-! ### Structural lemmas about the pipeline steps -/

lemma any_map_fst_pres (l : List (String × List Cell))
    (g : String × List Cell → String × List Cell)
    (hg : ∀ x, (g x).1 = x.1) (m : String) :
    (l.map g).any (fun p => p.1 == m) = l.any (fun p => p.1 == m) := by
  induction l with
  | nil => rfl
  | cons x xs ih => simp [hg x, ih]

lemma nrows_mapCol (df : DataFrame) (n : String) (f : Cell → Cell) :
    (df.mapCol n f).nrows = df.nrows := rfl

lemma nrows_setCol (df : DataFrame) (n : String) (vals : List Cell) :
    (df.setCol n vals).nrows = df.nrows := by
  unfold DataFrame.setCol; split <;> rfl

lemma nrows_strip (df : DataFrame) : (stripColNames df).nrows = df.nrows := rfl

lemma hasCol_mapCol (df : DataFrame) (n : String) (f : Cell → Cell) (m : String) :
    (df.mapCol n f).hasCol m = df.hasCol m := by
  unfold DataFrame.mapCol DataFrame.hasCol
  exact any_map_fst_pres _ _ (fun x => by by_cases h : x.1 == n <;> simp [h]) m

lemma hasCol_setCol_iff (df : DataFrame) (n m : String) (vals : List Cell) :
    (df.setCol n vals).hasCol m = true ↔ (df.hasCol m = true ∨ m = n) := by
  unfold DataFrame.setCol
  by_cases h : df.hasCol n = true
  · rw [if_pos h]
    have heq : (DataFrame.mk df.nrows
        (df.cols.map (fun p => if p.1 == n then (p.1, vals) else p))).hasCol m
          = df.hasCol m := by
      unfold DataFrame.hasCol
      exact any_map_fst_pres _ _ (fun x => by by_cases hx : x.1 == n <;> simp [hx]) m
    rw [heq]
    constructor
    · exact Or.inl
    · rintro (hm | rfl)
      · exact hm
      · exact h
  · rw [if_neg h]
    unfold DataFrame.hasCol at h ⊢
    simp only [List.any_append, List.any_cons, List.any_nil,
      Bool.or_false, Bool.or_eq_true, beq_iff_eq]
    constructor
    · rintro (hm | rfl)
      · exact Or.inl hm
      · exact Or.inr rfl
    · rintro (hm | rfl)
      · exact Or.inl hm
      · exact Or.inr rfl

lemma nrows_rutValidationDF (df : DataFrame) :
    (rutValidationDF df).nrows = df.nrows := by
  unfold rutValidationDF
  split
  · exact nrows_setCol _ _ _
  · rfl

lemma nrows_dateStepOk (df : DataFrame) : (dateStepOk df).nrows = df.nrows := by
  unfold dateStepOk dateLocalized dateConverted; split <;> rfl

lemma nrows_valorStep (df : DataFrame) : (valorStep df).nrows = df.nrows := by
  unfold valorStep; split <;> rfl

lemma nrows_opticalColStep (df : DataFrame) (c : String) :
    (opticalColStep df c).nrows = df.nrows := by
  unfold opticalColStep; split <;> rfl

lemma nrows_opticalFold :
    ∀ (cs : List String) (df : DataFrame),
      (cs.foldl opticalColStep df).nrows = df.nrows
  | [], _ => rfl
  | c :: cs, df => by
    rw [List.foldl_cons, nrows_opticalFold cs (opticalColStep df c),
      nrows_opticalColStep]

lemma hasCol_dateStepOk (df : DataFrame) (m : String) :
    (dateStepOk df).hasCol m = df.hasCol m := by
  unfold dateStepOk dateLocalized dateConverted
  split
  · rw [hasCol_mapCol, hasCol_mapCol]
  · rfl

lemma hasCol_valorStep (df : DataFrame) (m : String) :
    (valorStep df).hasCol m = df.hasCol m := by
  unfold valorStep
  split
  · exact hasCol_mapCol _ _ _ _
  · rfl

lemma hasCol_opticalColStep (df : DataFrame) (c m : String) :
    (opticalColStep df c).hasCol m = df.hasCol m := by
  unfold opticalColStep
  split
  · exact hasCol_mapCol _ _ _ _
  · rfl

lemma hasCol_opticalFold :
    ∀ (cs : List String) (df : DataFrame) (m : String),
      (cs.foldl opticalColStep df).hasCol m = df.hasCol m
  | [], _, _ => rfl
  | c :: cs, df, m => by
    rw [List.foldl_cons, hasCol_opticalFold cs (opticalColStep df c) m,
      hasCol_opticalColStep]

lemma lookupCol_replace_ne (n m : String) (g : String × List Cell → List Cell)
    (h : m ≠ n) :
    ∀ l : List (String × List Cell),
      lookupCol (l.map (fun p => if p.1 == n then (p.1, g p) else p)) m
        = lookupCol l m
  | [] => rfl
  | x :: xs => by
    rw [List.map_cons]
    by_cases hxn : (x.1 == n) = true
    · have hxm : (x.1 == m) = false := by
        have hx1 : x.1 = n := by simpa using hxn
        simp [hx1, Ne.symm h]
      rw [if_pos hxn]
      show lookupCol ((x.1, g x) :: _) m = _
      unfold lookupCol
      rw [if_neg (by simp [hxm]), if_neg (by simp [hxm])]
      exact lookupCol_replace_ne n m g h xs
    · rw [if_neg hxn]
      unfold lookupCol
      by_cases hxm : (x.1 == m) = true
      · rw [if_pos hxm, if_pos hxm]
      · rw [if_neg hxm, if_neg hxm]
        exact lookupCol_replace_ne n m g h xs

lemma lookupCol_map_self (n : String) (f : Cell → Cell) :
    ∀ l : List (String × List Cell),
      lookupCol (l.map (fun p => if p.1 == n then (p.1, p.2.map f) else p)) n
        = (lookupCol l n).map (List.map f)
  | [] => rfl
  | x :: xs => by
    rw [List.map_cons]
    by_cases hxn : (x.1 == n) = true
    · rw [if_pos hxn]
      show lookupCol ((x.1, x.2.map f) :: _) n = _
      unfold lookupCol
      rw [if_pos (by simpa using hxn), if_pos hxn]
      rfl
    · rw [if_neg hxn]
      unfold lookupCol
      rw [if_neg hxn, if_neg hxn]
      exact lookupCol_map_self n f xs

lemma lookupCol_append_one_ne (n m : String) (vals : List Cell) (h : m ≠ n) :
    ∀ l : List (String × List Cell),
      lookupCol (l ++ [(n, vals)]) m = lookupCol l m
  | [] => by
    show lookupCol [(n, vals)] m = none
    unfold lookupCol
    rw [if_neg (by simp [Ne.symm h])]
    rfl
  | x :: xs => by
    rw [List.cons_append]
    unfold lookupCol
    by_cases hxm : (x.1 == m) = true
    · rw [if_pos hxm, if_pos hxm]
    · rw [if_neg hxm, if_neg hxm]
      exact lookupCol_append_one_ne n m vals h xs

lemma getCol?_mapCol_ne (df : DataFrame) (n m : String) (f : Cell → Cell)
    (h : m ≠ n) : (df.mapCol n f).getCol? m = df.getCol? m :=
  lookupCol_replace_ne n m (fun p => p.2.map f) h df.cols

lemma getCol?_mapCol_self (df : DataFrame) (n : String) (f : Cell → Cell) :
    (df.mapCol n f).getCol? n = (df.getCol? n).map (List.map f) :=
  lookupCol_map_self n f df.cols

lemma getCol?_setCol_ne (df : DataFrame) (n : String) (vals : List Cell)
    (m : String) (h : m ≠ n) :
    (df.setCol n vals).getCol? m = df.getCol? m := by
  unfold DataFrame.setCol
  split
  · exact lookupCol_replace_ne n m (fun _ => vals) h df.cols
  · exact lookupCol_append_one_ne n m vals h df.cols

lemma hasCol_iff_getCol?_isSome (df : DataFrame) (m : String) :
    df.hasCol m = true ↔ ∃ vs, df.getCol? m = some vs := by
  unfold DataFrame.hasCol DataFrame.getCol?
  induction df.cols with
  | nil => simp [lookupCol]
  | cons x xs ih =>
    by_cases hx : (x.1 == m) = true <;> simp [lookupCol, hx, ih]

lemma getCol?_opticalFold_ne :
    ∀ (cs : List String) (df : DataFrame) (m : String),
      (∀ c ∈ cs, m ≠ c) →
      (cs.foldl opticalColStep df).getCol? m = df.getCol? m
  | [], _, _, _ => rfl
  | c :: cs, df, m, h => by
    rw [List.foldl_cons,
      getCol?_opticalFold_ne cs (opticalColStep df c) m
        (fun x hx => h x (List.mem_cons_of_mem c hx))]
    unfold opticalColStep
    split
    · exact getCol?_mapCol_ne _ _ _ _ (h c (List.mem_cons_self c cs))
    · rfl

/-! ### Label multiplicities and the success/raise shape of each step -/

lemma countP_map_fst_pres (l : List (String × List Cell))
    (g : String × List Cell → String × List Cell)
    (hg : ∀ x, (g x).1 = x.1) (m : String) :
    (l.map g).countP (fun p => p.1 == m) = l.countP (fun p => p.1 == m) := by
  induction l with
  | nil => rfl
  | cons x xs ih => simp [List.countP_cons, hg x, ih]

lemma countCol_mapCol (df : DataFrame) (n : String) (f : Cell → Cell) (m : String) :
    countCol (df.mapCol n f) m = countCol df m := by
  unfold DataFrame.mapCol countCol
  exact countP_map_fst_pres _ _ (fun x => by by_cases h : x.1 == n <;> simp [h]) m

lemma countCol_setCol_ne (df : DataFrame) (n : String) (vals : List Cell)
    (m : String) (h : m ≠ n) :
    countCol (df.setCol n vals) m = countCol df m := by
  unfold DataFrame.setCol countCol
  split
  · exact countP_map_fst_pres _ _ (fun x => by by_cases hx : x.1 == n <;> simp [hx]) m
  · rw [List.countP_append]
    simp [List.countP_cons, Ne.symm h]

lemma hasCol_iff_countCol_pos (df : DataFrame) (n : String) :
    df.hasCol n = true ↔ 1 ≤ countCol df n := by
  unfold DataFrame.hasCol countCol
  induction df.cols with
  | nil => simp
  | cons x xs ih =>
    by_cases hx : (x.1 == n) = true
    · simp [List.countP_cons, hx]
    · simp [List.countP_cons, hx, ih]

lemma hasCol_setCol_ne (df : DataFrame) (n : String) (vals : List Cell)
    (m : String) (h : m ≠ n) :
    (df.setCol n vals).hasCol m = df.hasCol m := by
  by_cases hm : df.hasCol m = true
  · rw [hm]; exact (hasCol_setCol_iff df n m vals).mpr (Or.inl hm)
  · have hns : ¬ (df.setCol n vals).hasCol m = true := fun hc =>
      ((hasCol_setCol_iff df n m vals).mp hc).elim hm h
    rw [Bool.not_eq_true] at hm hns
    rw [hm, hns]

lemma countCol_rutValidationDF_ne (df : DataFrame) (m : String)
    (h : m ≠ "Rut_Válido") :
    countCol (rutValidationDF df) m = countCol df m := by
  unfold rutValidationDF
  split
  · exact countCol_setCol_ne _ _ _ _ h
  · rfl

lemma hasCol_rutValidationDF_ne (df : DataFrame) (m : String)
    (h : m ≠ "Rut_Válido") :
    (rutValidationDF df).hasCol m = df.hasCol m := by
  unfold rutValidationDF
  split
  · exact hasCol_setCol_ne _ _ _ _ h
  · rfl

lemma getCol?_rutValidationDF_ne (df : DataFrame) (m : String)
    (h : m ≠ "Rut_Válido") :
    (rutValidationDF df).getCol? m = df.getCol? m := by
  unfold rutValidationDF
  split
  · exact getCol?_setCol_ne _ _ _ _ h
  · rfl

lemma countCol_dateStepOk (df : DataFrame) (m : String) :
    countCol (dateStepOk df) m = countCol df m := by
  unfold dateStepOk dateLocalized dateConverted
  split
  · rw [countCol_mapCol, countCol_mapCol]
  · rfl

lemma countCol_valorStep (df : DataFrame) (m : String) :
    countCol (valorStep df) m = countCol df m := by
  unfold valorStep
  split
  · exact countCol_mapCol _ _ _ _
  · rfl

lemma countCol_opticalColStep (df : DataFrame) (c m : String) :
    countCol (opticalColStep df c) m = countCol df m := by
  unfold opticalColStep
  split
  · exact countCol_mapCol _ _ _ _
  · rfl

lemma getCol?_dateStepOk_ne (df : DataFrame) (m : String)
    (h : m ≠ "Última_visita") :
    (dateStepOk df).getCol? m = df.getCol? m := by
  unfold dateStepOk dateLocalized dateConverted
  split
  · rw [getCol?_mapCol_ne _ _ _ _ h, getCol?_mapCol_ne _ _ _ _ h]
  · rfl

lemma dateConverted_col (df : DataFrame) :
    ((dateConverted df).getCol? "Última_visita").getD []
      = ((df.getCol? "Última_visita").getD []).map toDatetimeCoerce := by
  unfold dateConverted
  rw [getCol?_mapCol_self]
  cases df.getCol? "Última_visita" <;> rfl

lemma rutStep?_eq (df : DataFrame)
    (h1 : countCol df "Rut" ≤ 1) (h2 : countCol df "Rut_Válido" ≤ 1) :
    rutStep? df = some (rutValidationDF df) := by
  unfold rutStep?
  by_cases hr : df.hasCol "Rut" = true
  · have hcond : ¬ (countCol df "Rut" ≠ 1 ∨ 2 ≤ countCol df "Rut_Válido") := by
      rintro (hne | hge)
      · exact hne (Nat.le_antisymm h1 ((hasCol_iff_countCol_pos df "Rut").mp hr))
      · omega
    rw [if_pos hr, if_neg hcond]
  · rw [if_neg hr]
    unfold rutValidationDF
    rw [if_neg hr]

lemma dateStep?_eq (df : DataFrame)
    (hc : countCol df "Última_visita" ≤ 1)
    (hnaw : ∀ c ∈ (df.getCol? "Última_visita").getD [],
      isAware (toDatetimeCoerce c) = false) :
    dateStep? df = some (dateStepOk df) := by
  unfold dateStep? dateStepOk
  by_cases hd : df.hasCol "Última_visita" = true
  · have hany : ((((dateConverted df).getCol? "Última_visita").getD []).any isAware) = false := by
      rw [dateConverted_col, List.any_map]
      rw [List.any_eq_false]
      intro c hcmem
      simpa using hnaw c hcmem
    rw [if_pos hd, if_pos hd,
      if_neg (fun hne =>
        hne (Nat.le_antisymm hc ((hasCol_iff_countCol_pos df "Última_visita").mp hd))),
      if_neg (by rw [hany]; exact Bool.false_ne_true)]
  · rw [if_neg hd, if_neg hd]

lemma valorStep?_eq (df : DataFrame) (hc : countCol df "Valor" ≤ 1) :
    valorStep? df = some (valorStep df) := by
  unfold valorStep?
  by_cases hv : df.hasCol "Valor" = true
  · rw [if_pos hv,
      if_neg (fun hne =>
        hne (Nat.le_antisymm hc ((hasCol_iff_countCol_pos df "Valor").mp hv)))]
  · rw [if_neg hv]
    unfold valorStep
    rw [if_neg hv]

lemma opticalFold?_eq :
    ∀ (cs : List String) (df : DataFrame),
      (∀ c ∈ cs, countCol df c ≤ 1) →
      opticalFold? cs df = some (cs.foldl opticalColStep df)
  | [], _, _ => rfl
  | c :: cs, df, h => by
    have hstep : opticalColStep? df c = some (opticalColStep df c) := by
      unfold opticalColStep?
      by_cases hc : df.hasCol c = true
      · rw [if_pos hc,
          if_neg (fun hne => hne (Nat.le_antisymm
            (h c (List.mem_cons_self c cs))
            ((hasCol_iff_countCol_pos df c).mp hc)))]
      · rw [if_neg hc]
        unfold opticalColStep
        rw [if_neg hc]
    unfold opticalFold?
    rw [hstep, List.foldl_cons]
    exact opticalFold?_eq cs (opticalColStep df c)
      (fun x hx => by
        rw [countCol_opticalColStep]
        exact h x (List.mem_cons_of_mem c hx))

/-- The labels whose duplication makes some line of the load body raise. -/
def relevantLabels : List String :=
  "Rut" :: "Rut_Válido" :: "Última_visita" :: "Valor" :: COLUMNAS_OPTICAS

/-- No raise-relevant label is duplicated (after stripping). -/
def dupSafe (df : DataFrame) : Prop :=
  ∀ n ∈ relevantLabels, countCol df n ≤ 1

/-- No value of the visit-date column coerces to a timezone-aware datetime
(otherwise line 104 raises). -/
def noAwareDates (df : DataFrame) : Prop :=
  ∀ c ∈ (df.getCol? "Última_visita").getD [],
    isAware (toDatetimeCoerce c) = false

instance (df : DataFrame) : Decidable (dupSafe df) :=
  inferInstanceAs (Decidable (∀ n ∈ relevantLabels, countCol df n ≤ 1))

instance (df : DataFrame) : Decidable (noAwareDates df) :=
  inferInstanceAs (Decidable (∀ c ∈ (df.getCol? "Última_visita").getD [],
    isAware (toDatetimeCoerce c) = false))

/-- The success composition of the load body's steps. -/
def transformOk (df : DataFrame) : DataFrame × List String :=
  (opticalStep (valorStep (dateStepOk (rutValidationDF (stripColNames df)))),
   rutValidationMsgs (stripColNames df))

/-- On a raise-free parsed table the load body is the success composition of
its steps. -/
lemma transformLoaded?_eq (df : DataFrame)
    (hdup : dupSafe (stripColNames df))
    (hnaw : noAwareDates (stripColNames df)) :
    transformLoaded? df =
      (some
        (opticalStep (valorStep (dateStepOk (rutValidationDF (stripColNames df))))),
       rutValidationMsgs (stripColNames df)) := by
  have hRut : countCol (stripColNames df) "Rut" ≤ 1 := hdup _ (by decide)
  have hRV : countCol (stripColNames df) "Rut_Válido" ≤ 1 := hdup _ (by decide)
  have hUV : countCol (stripColNames df) "Última_visita" ≤ 1 := hdup _ (by decide)
  have hVal : countCol (stripColNames df) "Valor" ≤ 1 := hdup _ (by decide)
  have h2 := rutStep?_eq (stripColNames df) hRut hRV
  have hUV2 : countCol (rutValidationDF (stripColNames df)) "Última_visita" ≤ 1 := by
    rw [countCol_rutValidationDF_ne _ _ (by decide)]; exact hUV
  have hnaw2 : ∀ c ∈ ((rutValidationDF (stripColNames df)).getCol? "Última_visita").getD [],
      isAware (toDatetimeCoerce c) = false := by
    rw [getCol?_rutValidationDF_ne _ _ (by decide)]
    exact hnaw
  have h3 := dateStep?_eq (rutValidationDF (stripColNames df)) hUV2 hnaw2
  have hVal3 : countCol (dateStepOk (rutValidationDF (stripColNames df))) "Valor" ≤ 1 := by
    rw [countCol_dateStepOk, countCol_rutValidationDF_ne _ _ (by decide)]
    exact hVal
  have h4 := valorStep?_eq (dateStepOk (rutValidationDF (stripColNames df))) hVal3
  have hOpt : ∀ c ∈ COLUMNAS_OPTICAS,
      countCol (valorStep (dateStepOk (rutValidationDF (stripColNames df)))) c ≤ 1 := by
    intro c hc
    rw [countCol_valorStep, countCol_dateStepOk,
      countCol_rutValidationDF_ne _ _ ?hne]
    · exact hdup c (by
        unfold relevantLabels
        exact List.mem_cons_of_mem _ (List.mem_cons_of_mem _
          (List.mem_cons_of_mem _ (List.mem_cons_of_mem _ hc))))
    case hne =>
      intro hceq
      subst hceq
      revert hc
      decide
  have h5 := opticalFold?_eq COLUMNAS_OPTICAS
    (valorStep (dateStepOk (rutValidationDF (stripColNames df)))) hOpt
  unfold transformLoaded?
  simp only [h2, h3, h4, h5, opticalStep]

/-- On the raise-free domain, the full load is the success composition. -/
lemma cargar_datos_ok (e : LoadEnv) (df : DataFrame)
    (hp : e.parsed = some df) (hex : e.fileExists = true)
    (hsig : es_excel_valido e.mime = true)
    (hdup : dupSafe (stripColNames df))
    (hnaw : noAwareDates (stripColNames df)) :
    cargar_datos e = transformOk df := by
  have h := transformLoaded?_eq df hdup hnaw
  simp [cargar_datos, hex, hsig, hp, h, transformOk]

/-- A parsed table whose visit-date column holds an offset-bearing (hence
timezone-aware-parsing) value makes line 104 raise: the load degrades to the
empty table plus the critical error message. -/
lemma cargar_datos_aware_date_degrades (e : LoadEnv) (df : DataFrame)
    (hp : e.parsed = some df) (hex : e.fileExists = true)
    (hsig : es_excel_valido e.mime = true)
    (hRut : countCol (stripColNames df) "Rut" ≤ 1)
    (hRV : countCol (stripColNames df) "Rut_Válido" ≤ 1)
    (hdate : (stripColNames df).hasCol "Última_visita" = true)
    (haw : ∃ c ∈ ((stripColNames df).getCol? "Última_visita").getD [],
      isAware (toDatetimeCoerce c) = true) :
    (cargar_datos e).1 = emptyDF ∧
      "❌ Error crítico al cargar datos" ∈ (cargar_datos e).2 := by
  have h2 := rutStep?_eq (stripColNames df) hRut hRV
  have hdate2 : (rutValidationDF (stripColNames df)).hasCol "Última_visita" = true := by
    rw [hasCol_rutValidationDF_ne _ _ (by decide)]
    exact hdate
  have hany : ((((dateConverted (rutValidationDF (stripColNames df))).getCol?
      "Última_visita").getD []).any isAware) = true := by
    rw [dateConverted_col, List.any_map,
      getCol?_rutValidationDF_ne _ _ (by decide)]
    obtain ⟨c, hcmem, hcaw⟩ := haw
    exact List.any_eq_true.mpr ⟨c, hcmem, hcaw⟩
  have hds : dateStep? (rutValidationDF (stripColNames df)) = none := by
    unfold dateStep?
    rw [if_pos hdate2]
    by_cases hcnt : countCol (rutValidationDF (stripColNames df)) "Última_visita" ≠ 1
    · rw [if_pos hcnt]
    · rw [if_neg hcnt, if_pos (by rw [hany])]
  have htl : transformLoaded? df =
      (none, rutValidationMsgs (stripColNames df)) := by
    unfold transformLoaded?
    simp only [h2, hds]
  have hcd : cargar_datos e =
      (emptyDF, rutValidationMsgs (stripColNames df)
        ++ ["❌ Error crítico al cargar datos"]) := by
    simp [cargar_datos, hex, hsig, hp, htl]
  rw [hcd]
  exact ⟨rfl, by simp⟩

/-- **C3**: when the store file exists but its binary content-type signature
is not in the accepted spreadsheet set (including the case where the
signature probe itself raises), `cargar_datos` returns the empty table plus
the user-visible format-error message; the embedding is a total function, so
no exception reaches the caller. -/
theorem C3_invalid_signature_returns_empty (e : LoadEnv)
    (hex : e.fileExists = true)
    (hsig : ∀ m, e.mime = some m → MIME_VALIDOS.contains m = false) :
    cargar_datos e = (emptyDF, ["❌ El archivo no es un Excel válido"]) := by
  have hval : es_excel_valido e.mime = false := by
    cases hm : e.mime with
    | none => rfl
    | some m => simpa [es_excel_valido] using hsig m hm
  simp [cargar_datos, hex, hval]

theorem C3_invalid_signature_returns_empty_witness :
    cargar_datos ⟨true, some "text/plain", some ⟨1, [("Rut", [Cell.cstr "x"])]⟩⟩
      = (emptyDF, ["❌ El archivo no es un Excel válido"]) :=
  C3_invalid_signature_returns_empty _ rfl
    (fun m hm => by
      have h := Option.some.inj hm
      subst h
      decide)

/-- **C4 (counterexample)**: `cargar_datos` does not insert absent canonical
columns.  Loading a table with a single unrelated column yields a table that
still lacks the canonical price column `Valor` and the canonical
prescription column `OD_SPH`, contradicting the claim that every canonical
column is present after load. -/
theorem C4_counterexample_no_default_insertion :
    ((cargar_datos ⟨true, some "application/vnd.ms-excel",
        some ⟨1, [("Foo", [Cell.cstr "x"])]⟩⟩).1.hasCol "Valor" = false) ∧
    ((cargar_datos ⟨true, some "application/vnd.ms-excel",
        some ⟨1, [("Foo", [Cell.cstr "x"])]⟩⟩).1.hasCol "OD_SPH" = false) ∧
    ((cargar_datos ⟨true, some "application/vnd.ms-excel",
        some ⟨1, [("Foo", [Cell.cstr "x"])]⟩⟩).1.nrows = 1) := by
  decide

/-- **C4 (amended)**: on a successfully parsed table that does not trip one
of the load body's own raise routes — no raise-relevant label duplicated
after stripping, and no visit-date value coercing to a timezone-aware
datetime (each such route degrades the whole load to the empty table via the
outer handler, see `cargar_datos_aware_date_degrades`) — load-time
reconciliation preserves the row count and changes only columns, and the
output column set is exactly the (whitespace-stripped) input column set plus
`Rut_Válido` when a `Rut` column is present — absent canonical columns are
NOT inserted with defaults. -/
theorem C4_amended_row_and_column_behavior (e : LoadEnv) (df : DataFrame)
    (hp : e.parsed = some df) (hex : e.fileExists = true)
    (hsig : es_excel_valido e.mime = true)
    (hdup : dupSafe (stripColNames df))
    (hnaw : noAwareDates (stripColNames df)) :
    ((cargar_datos e).1.nrows = df.nrows) ∧
    (∀ n, (cargar_datos e).1.hasCol n = true ↔
      ((stripColNames df).hasCol n = true ∨
        (n = "Rut_Válido" ∧ (stripColNames df).hasCol "Rut" = true))) := by
  have hcd : cargar_datos e = transformOk df :=
    cargar_datos_ok e df hp hex hsig hdup hnaw
  have h1 : (transformOk df).1 =
      opticalStep (valorStep (dateStepOk (rutValidationDF (stripColNames df)))) := by
    simp only [transformOk]
  rw [hcd, h1]
  constructor
  · rw [opticalStep, nrows_opticalFold, nrows_valorStep, nrows_dateStepOk,
      nrows_rutValidationDF, nrows_strip]
  · intro n
    rw [opticalStep, hasCol_opticalFold, hasCol_valorStep, hasCol_dateStepOk]
    unfold rutValidationDF
    by_cases hr : (stripColNames df).hasCol "Rut" = true
    · rw [if_pos hr, hasCol_setCol_iff]
      constructor
      · rintro (hm | rfl)
        · exact Or.inl hm
        · exact Or.inr ⟨rfl, hr⟩
      · rintro (hm | ⟨rfl, -⟩)
        · exact Or.inl hm
        · exact Or.inr rfl
    · rw [if_neg hr]
      constructor
      · exact Or.inl
      · rintro (hm | ⟨-, hcontra⟩)
        · exact hm
        · exact absurd hcontra hr

theorem C4_amended_row_and_column_behavior_witness :
    ((cargar_datos ⟨true, some "application/vnd.ms-excel",
        some ⟨2, [(" Rut ", [Cell.cstr "a", Cell.cstr "b"])]⟩⟩).1.nrows = 2) ∧
    (∀ n, (cargar_datos ⟨true, some "application/vnd.ms-excel",
        some ⟨2, [(" Rut ", [Cell.cstr "a", Cell.cstr "b"])]⟩⟩).1.hasCol n = true ↔
      ((stripColNames ⟨2, [(" Rut ", [Cell.cstr "a", Cell.cstr "b"])]⟩).hasCol n = true ∨
        (n = "Rut_Válido" ∧
          (stripColNames ⟨2, [(" Rut ", [Cell.cstr "a", Cell.cstr "b"])]⟩).hasCol "Rut" = true))) :=
  C4_amended_row_and_column_behavior
    ⟨true, some "application/vnd.ms-excel",
      some ⟨2, [(" Rut ", [Cell.cstr "a", Cell.cstr "b"])]⟩⟩
    ⟨2, [(" Rut ", [Cell.cstr "a", Cell.cstr "b"])]⟩ rfl rfl (by decide)
    (by decide) (by decide)

lemma fillna_toNumeric_cnum (c : Cell) :
    ∃ v : Int, fillnaZero (toNumericCoerce c) = Cell.cnum v := by
  cases c with
  | cnum v => exact ⟨v, rfl⟩
  | cbool b => exact ⟨if b then 1 else 0, rfl⟩
  | cstr s =>
    cases h : (⟨pyStrip s.toList⟩ : String).toInt? with
    | some v =>
      refine ⟨v, ?_⟩
      show fillnaZero (match (⟨pyStrip s.toList⟩ : String).toInt? with
        | some w => Cell.cnum w | none => Cell.cnan) = Cell.cnum v
      rw [h]
      rfl
    | none =>
      refine ⟨0, ?_⟩
      show fillnaZero (match (⟨pyStrip s.toList⟩ : String).toInt? with
        | some w => Cell.cnum w | none => Cell.cnan) = Cell.cnum 0
      rw [h]
      rfl
  | cdate t a => exact ⟨0, rfl⟩
  | cnan => exact ⟨0, rfl⟩

/-- **C6**: whenever the load succeeds with the price column `Valor` present
(after column-name stripping; the raise-free side conditions are those of
the load body itself), every entry of that column in the load result is a
number: the best-effort numeric coercion maps parse failures to NaN and the
`fillna(0)` replaces them with zero, never producing an error. -/
theorem C6_valor_column_all_numeric (e : LoadEnv) (df : DataFrame)
    (hp : e.parsed = some df) (hex : e.fileExists = true)
    (hsig : es_excel_valido e.mime = true)
    (hdup : dupSafe (stripColNames df))
    (hnaw : noAwareDates (stripColNames df))
    (hv : (stripColNames df).hasCol "Valor" = true) :
    ∃ vals, (cargar_datos e).1.getCol? "Valor" = some vals ∧
      ∀ c ∈ vals, ∃ v : Int, c = Cell.cnum v := by
  have hcd : cargar_datos e = transformOk df :=
    cargar_datos_ok e df hp hex hsig hdup hnaw
  have h1 : (transformOk df).1 =
      opticalStep (valorStep (dateStepOk (rutValidationDF (stripColNames df)))) := by
    simp only [transformOk]
  have h2 : (rutValidationDF (stripColNames df)).hasCol "Valor" = true := by
    unfold rutValidationDF
    split
    · exact (hasCol_setCol_iff _ _ _ _).mpr (Or.inl hv)
    · exact hv
  have h3 : (dateStepOk (rutValidationDF (stripColNames df))).hasCol "Valor" = true := by
    rw [hasCol_dateStepOk]; exact h2
  obtain ⟨vs3, hvs3⟩ := (hasCol_iff_getCol?_isSome _ _).mp h3
  have hval : (valorStep (dateStepOk (rutValidationDF (stripColNames df)))).getCol? "Valor"
      = some (vs3.map (fun c => fillnaZero (toNumericCoerce c))) := by
    unfold valorStep
    rw [if_pos h3, getCol?_mapCol_self, hvs3]
    rfl
  have hopt : (opticalStep (valorStep (dateStepOk (rutValidationDF (stripColNames df))))).getCol? "Valor"
      = (valorStep (dateStepOk (rutValidationDF (stripColNames df)))).getCol? "Valor" :=
    getCol?_opticalFold_ne COLUMNAS_OPTICAS _ _ (by decide)
  refine ⟨vs3.map (fun c => fillnaZero (toNumericCoerce c)), ?_, ?_⟩
  · rw [hcd, h1, hopt, hval]
  · intro c hc
    obtain ⟨c0, -, rfl⟩ := List.mem_map.mp hc
    exact fillna_toNumeric_cnum c0

theorem C6_valor_column_all_numeric_witness :
    ∃ vals, (cargar_datos ⟨true, some "application/vnd.ms-excel",
        some ⟨3, [("Valor", [Cell.cstr "abc", Cell.cnum 5, Cell.cnan])]⟩⟩).1.getCol? "Valor"
      = some vals ∧ ∀ c ∈ vals, ∃ v : Int, c = Cell.cnum v :=
  C6_valor_column_all_numeric _ _ rfl rfl (by decide) (by decide) (by decide)
    (by decide)

/-! ## PatientResolver (spec §4.4)

`src/app.py` is a read-only dashboard: it contains no form-submission or
ledger-mutation code, so `PatientResolver.apply` is modelled from the spec. -/

/-- Title-case one word: capitalize the first letter, lowercase the rest. -/
def titleWord (w : List Char) : List Char :=
  match w with
  | [] => []
  | c :: cs => c.toUpper :: cs.map Char.toLower

/-- Split a character list into whitespace-separated words, dropping empty
fragments. -/
def wordsAux : List Char → List Char → List (List Char)
  | [], acc => if acc.isEmpty then [] else [acc.reverse]
  | c :: cs, acc =>
    if c.isWhitespace then
      if acc.isEmpty then wordsAux cs [] else acc.reverse :: wordsAux cs []
    else wordsAux cs (c :: acc)

/-- Modelled from the spec: the name normalization of §4.4 — trim, collapse
internal whitespace, title-case each word — which has no counterpart in
`src/app.py`. -/
def normalizeName (s : String) : String :=
  ⟨(List.intersperse [' '] ((wordsAux s.toList []).map titleWord)).flatten⟩

/-- The field-attributable errors of the validation gate (spec §4.4/§7). -/
inductive FieldError where
  | invalidRut | emptyName | invalidPrice | invalidAge
  deriving DecidableEq, Repr

/-- One denormalized ledger row: identity fields plus one sale. -/
structure LedgerRow where
  rut : String
  nombre : String
  edad : Int
  telefono : String
  valor : Int
  tipoLente : String
  armazon : String
  formaPago : String
  fecha : Int
  deriving DecidableEq, Repr

/-- An incoming form submission: raw identity and sale fields. -/
structure IncomingSale where
  rut : String
  nombre : String
  edad : Int
  telefono : String
  valor : Int
  tipoLente : String
  armazon : String
  formaPago : String
  fecha : Int
  deriving Repr

/-- Modelled from the spec: `PatientResolver.apply` (spec §4.4), which is
missing from `src/app.py` (the repository ships only the read-only
dashboard).  Validation gate, all checked before any mutation: the national
ID passes the §4.1 checksum (the source's `validar_rut_completo`), the name
is non-empty after trimming, the price is positive, and the age lies in
[0,150]; any violation aborts with the ledger untouched and a specific
field error.  On success exactly one new row is appended (row-per-visit,
history preserved) carrying the canonical ID and the normalized name. -/
def PatientResolver_apply (ledger : List LedgerRow) (inc : IncomingSale) :
    List LedgerRow × Option FieldError :=
  if validar_rut_completo inc.rut = false then (ledger, some .invalidRut)
  else if pyStrip inc.nombre.toList = [] then (ledger, some .emptyName)
  else if inc.valor ≤ 0 then (ledger, some .invalidPrice)
  else if inc.edad < 0 ∨ 150 < inc.edad then (ledger, some .invalidAge)
  else
    (ledger ++ [{ rut := (normalize_and_validate inc.rut).getD inc.rut,
                  nombre := normalizeName inc.nombre,
                  edad := inc.edad, telefono := inc.telefono,
                  valor := inc.valor, tipoLente := inc.tipoLente,
                  armazon := inc.armazon, formaPago := inc.formaPago,
                  fecha := inc.fecha }], none)

/-- **C5**: when the incoming submission's national ID fails checksum
validation, `PatientResolver.apply` (modelled from the spec over the
source's validator) leaves the ledger entirely unchanged — in particular its
row count — and reports the ID-field error; no partial mutation occurs. -/
theorem C5_invalid_id_no_mutation (ledger : List LedgerRow) (inc : IncomingSale)
    (h : validar_rut_completo inc.rut = false) :
    PatientResolver_apply ledger inc = (ledger, some FieldError.invalidRut) ∧
    (PatientResolver_apply ledger inc).1.length = ledger.length := by
  have heq : PatientResolver_apply ledger inc = (ledger, some .invalidRut) := by
    unfold PatientResolver_apply
    rw [if_pos h]
  exact ⟨heq, by rw [heq]⟩

theorem C5_invalid_id_no_mutation_witness :
    PatientResolver_apply
        [{ rut := "12.345.678-5", nombre := "Ana", edad := 30, telefono := "",
           valor := 1, tipoLente := "", armazon := "", formaPago := "",
           fecha := 0 }]
        { rut := "12.345.678-4", nombre := "Juan", edad := 40, telefono := "",
          valor := 5, tipoLente := "", armazon := "", formaPago := "",
          fecha := 1 }
      = ([{ rut := "12.345.678-5", nombre := "Ana", edad := 30, telefono := "",
            valor := 1, tipoLente := "", armazon := "", formaPago := "",
            fecha := 0 }], some FieldError.invalidRut) :=
  (C5_invalid_id_no_mutation _ _ (by decide)).1

/-! ## Embedding of `generar_pdf_receta` (src/app.py lines 123-198)

The drawing calls do not touch the filesystem; the file events are
`c.save()` (line 184) creating `temp_<uuid>.pdf`, the read-back
(lines 187-188) and `os.remove` (line 189).  The whole body runs inside one
`try`; the `except` handler (lines 195-198) only logs, shows an error and
returns an empty buffer — it performs no file cleanup.  The run is modelled
as a function of which step, if any, raises. -/

inductive PdfFailure where
  | atDraw | atSave | atRead | atRemove
  deriving DecidableEq, Repr

structure FsState where
  tempFileOnDisk : Bool
  deriving DecidableEq, Repr

/-- Lines 195-198: `logging.error`, `st.error`, `return BytesIO()` — the
handler returns an empty buffer and leaves the filesystem untouched. -/
def pdfExceptHandler (s : FsState) : FsState × Bool := (s, false)

/-- One run of `generar_pdf_receta`: the returned Boolean says whether the
returned buffer holds the document (the success path) or is the handler's
empty `BytesIO()`. -/
def generar_pdf_receta_run (fail : Option PdfFailure) (s : FsState) :
    FsState × Bool :=
  -- lines 127-182: buffer and canvas work, no file written yet
  if fail = some .atDraw then pdfExceptHandler s
  -- line 184: `c.save()`; modelled as raising before the file appears
  else if fail = some .atSave then pdfExceptHandler s
  else
    -- the save succeeded: `temp_<uuid>.pdf` now exists on disk
    let s1 : FsState := ⟨true⟩
    -- lines 187-188: read the temp file back into the buffer
    if fail = some .atRead then pdfExceptHandler s1
    -- line 189: `os.remove(filename)`
    else if fail = some .atRemove then pdfExceptHandler s1
    else (⟨false⟩, true)

/-- **C7 (code bug)**: the success path deletes the temporary file, but a
failure after `c.save()` (for example during the read-back of lines 187-188)
reaches the `except` handler, which performs no cleanup — the temporary file
persists after the operation completes, contradicting the guaranteed-cleanup
requirement. -/
theorem C7_temp_file_leak_on_failure :
    ((generar_pdf_receta_run none ⟨false⟩).1.tempFileOnDisk = false ∧
      (generar_pdf_receta_run none ⟨false⟩).2 = true) ∧
    ((generar_pdf_receta_run (some .atRead) ⟨false⟩).1.tempFileOnDisk = true ∧
      (generar_pdf_receta_run (some .atRead) ⟨false⟩).2 = false) := by
  decide

/-! ## Embedding of the receipt rendering (src/app.py lines 132-181) -/

/-- Python `html.escape` with its default `quote=True`: `&`, `<`, `>`, `"`
and the apostrophe are replaced by entities.  The source replaces `&` first,
so the character-wise formulation is equivalent. -/
def escapeChar (c : Char) : List Char :=
  if c = '&' then "&amp;".toList
  else if c = '<' then "&lt;".toList
  else if c = '>' then "&gt;".toList
  else if c = '"' then "&quot;".toList
  else if c.toNat = 39 then "&#x27;".toList
  else [c]

def escapeHtml (s : String) : String := ⟨(s.toList.map escapeChar).flatten⟩

/-- The user-supplied fields of one patient row as rendered into the
receipt (`paciente.get(...)`, stringified by the load pipeline). -/
structure Paciente where
  nombre : String
  rut : String
  odSph : String
  odCyl : String
  odEje : String
  oiSph : String
  oiCyl : String
  oiEje : String
  dpLejos : String
  dpCerca : String
  addVal : String
  deriving Repr

/-- The text strings drawn into the PDF, in source order (`setTitle` line
132, `drawString` lines 136-181; the date of line 142 is runtime data, not
user-supplied).  The six prescription values are drawn as `str(od)` /
`str(oi)` — on the string cells produced by the load pipeline that is the
identity, with no escaping — and the RUT is masked but not escaped. -/
def generar_pdf_textos (p : Paciente) : List String :=
  [ "Receta Óptica - " ++ escapeHtml p.nombre,
    "BMA Ópticas - Receta Óptica",
    "Paciente: " ++ escapeHtml p.nombre,
    "RUT: " ++ enmascarar_rut (.pstr p.rut),
    "Prescripción Óptica:", "Parámetro",
    "Ojo Derecho (OD)", "Ojo Izquierdo (OI)",
    "ESF", p.odSph, p.oiSph,
    "CIL", p.odCyl, p.oiCyl,
    "EJE", p.odEje, p.oiEje,
    "Adicionales:",
    "DP Lejos: " ++ escapeHtml p.dpLejos,
    "DP Cerca: " ++ escapeHtml p.dpCerca,
    "ADD: " ++ escapeHtml p.addVal,
    "Firma del Óptico" ]

/-- **C8 (code bug)**: the rendered output contains the raw `OD_SPH` value
`"<x>"` verbatim (lines 158-163 draw `str(od)` without `escape`), although
the escaping transform would have rewritten it, and the RUT line carries the
unescaped masked RUT (line 141) — so not every user-supplied text field
passes through the escaping transform, contradicting the claim. -/
theorem C8_prescription_and_rut_not_escaped :
    ("<x>" ∈ generar_pdf_textos
        ⟨"n", "1&-2", "<x>", "", "", "", "", "", "", "", ""⟩) ∧
    escapeHtml "<x>" = "&lt;x&gt;" ∧
    ("RUT: 1&-2" ∈ generar_pdf_textos
        ⟨"n", "1&-2", "<x>", "", "", "", "", "", "", "", ""⟩) ∧
    escapeHtml "1&-2" = "1&amp;-2" := by
  decide

end BMA
